import Mathlib

/-!
Verification of the settings persistence module of the GCVideo firmware
(`src/Firmware/settings.c`): the versioned record codec used by
`settings_save` / `settings_load` and the rotational log store that places
records inside one 256-slot flash sector.

The embedding works at the byte level.  A flash slot is modelled by the
64-byte buffer the firmware reads from it (`sizeof(storedsettings_t)` = 64,
63 payload bytes plus one struct padding byte); a sector is the list of its
256 slots.  Machine bytes are `Nat` values below 256, 32-bit words are `Nat`
values below 2^32, and the signed 8-bit picture controls are `Int` values
in [-128, 128).
-/

namespace GCVideo

/-- SETTINGS_VERSION in settings.c -/
def SETTINGS_VERSION : Nat := 5

/-- SETTINGS_SIZE_V4 in settings.c -/
def SETTINGS_SIZE_V4 : Nat := 60

/-- SETTINGS_SIZE_V5 in settings.c -/
def SETTINGS_SIZE_V5 : Nat := 63

/-- Byte `j` of a flash read buffer.  Out-of-range indices yield 0; they are
never produced by the firmware, which always reads full 64-byte buffers. -/
def byteAt (r : List Nat) (j : Nat) : Nat := r.getD j 0

/-- The four bytes of one 32-bit word as laid out in `storedsettings_t`. -/
def le32 (w : Nat) : List Nat :=
  [w % 2^8, w / 2^8 % 2^8, w / 2^16 % 2^8, w / 2^24 % 2^8]

/-- The 32-bit word stored at byte offset `o` of a buffer. -/
def word32At (r : List Nat) (o : Nat) : Nat :=
  byteAt r o + 2^8 * byteAt r (o+1) + 2^16 * byteAt r (o+2) + 2^24 * byteAt r (o+3)

/-- Reinterpret an `int8_t` value as the byte that stores it
(two's complement). -/
def int8ToByte (x : Int) : Nat := (x % 256).toNat

/-- Reinterpret a stored byte as the `int8_t` it encodes. -/
def int8OfByte (b : Nat) : Int := if b < 128 then (b : Int) else (b : Int) - 256

/-- The live settings state of settings.c: the global variables written by
`settings_load` and read by `settings_save`.  `video_settings` and `ir_codes`
hold `VIDMODE_COUNT = 6` and `NUM_IRCODES = 6` 32-bit words respectively. -/
structure Settings where
  video_settings     : List Nat
  osdbg_settings     : Nat
  mode_switch_delay  : Nat
  resbox_enabled     : Bool
  audio_volume       : Nat
  audio_mute         : Bool
  ir_codes           : List Nat
  picture_brightness : Int
  picture_contrast   : Int
  picture_saturation : Int
deriving Repr, DecidableEq

/-- Range constraints making a `Settings` value representable by the C
globals: six 32-bit per-mode words, six 32-bit IR codes, an 8-bit volume and
signed 8-bit picture controls. -/
def ValidSettings (s : Settings) : Prop :=
  s.video_settings.length = 6 ∧ (∀ w ∈ s.video_settings, w < 2^32) ∧
  s.osdbg_settings < 2^32 ∧ s.mode_switch_delay < 2^32 ∧
  s.audio_volume < 2^8 ∧
  s.ir_codes.length = 6 ∧ (∀ w ∈ s.ir_codes, w < 2^32) ∧
  -128 ≤ s.picture_brightness ∧ s.picture_brightness < 128 ∧
  -128 ≤ s.picture_contrast ∧ s.picture_contrast < 128 ∧
  -128 ≤ s.picture_saturation ∧ s.picture_saturation < 128

instance : DecidablePred ValidSettings := fun s => by
  unfold ValidSettings; infer_instance

/-- The flags byte built by `settings_save`: bit 0 = SET_FLAG_RESBOX,
bit 1 = SET_FLAG_MUTE (both or-ed into a zeroed byte). -/
def flagsByte (s : Settings) : Nat :=
  (if s.resbox_enabled then 1 else 0) + (if s.audio_mute then 2 else 0)

/-- Bytes 1..63 of a `storedsettings_t` buffer (everything after the checksum
byte): version, flags, volume, six per-mode video words, the OSD background
word, the mode-switch delay, six IR codes, and the four trailing bytes
(`pic`): brightness, contrast, saturation and the struct padding byte for a
V5 record. -/
def encodeBody (ver : Nat) (s : Settings) (pic : List Nat) : List Nat :=
  ver :: flagsByte s :: s.audio_volume % 2^8 ::
    ((s.video_settings.map le32).flatten ++ le32 s.osdbg_settings ++
     le32 s.mode_switch_delay ++ (s.ir_codes.map le32).flatten ++ pic)

/-- The 64-byte buffer written by `settings_save`: a V5 record whose
checksum byte is the 8-bit sum of all following bytes of the struct
(the padding byte is zero because the struct is `memset` to 0 first). -/
def encodeV5 (s : Settings) : List Nat :=
  let body := encodeBody SETTINGS_VERSION s
    [int8ToByte s.picture_brightness, int8ToByte s.picture_contrast,
     int8ToByte s.picture_saturation, 0]
  (body.sum % 256) :: body

/-- Modelled from the spec: the legacy V4 record writer is not part of the
repository (only the V4 branch of the decoder in `settings_load` remains).
Per §6 of the spec a V4 record is the same layout with version byte 4,
truncated before the picture controls: only the first 60 bytes are
meaningful and the checksum covers exactly bytes 1..59.  The bytes past the
declared size are left zero here. -/
def encodeV4 (s : Settings) : List Nat :=
  let body := encodeBody 4 s [0, 0, 0, 0]
  ((body.take 59).sum % 256) :: body

/-- Record size chosen by the `switch (set.version)` in `settings_load`
(`size` stays 0 for unrecognized versions). -/
def recordSize (v : Nat) : Nat :=
  if v = 4 then SETTINGS_SIZE_V4 else if v = SETTINGS_VERSION then SETTINGS_SIZE_V5 else 0

/-- The 8-bit checksum computed by `settings_load`: the sum of bytes
1..size-1 of the buffer, accumulated in a `uint8_t`. -/
def chkSum (r : List Nat) (size : Nat) : Nat :=
  (((r.drop 1).take (size - 1)).sum) % 256

/-- The validity test of `settings_load`: recognized version byte
(5 or 4), non-zero declared size, and stored checksum equal to the
recomputed one. -/
def slotValid (r : List Nat) : Bool :=
  (byteAt r 1 == SETTINGS_VERSION || byteAt r 1 == 4) &&
  (recordSize (byteAt r 1) != 0 && chkSum r (recordSize (byteAt r 1)) == byteAt r 0)

/-- The emptiness test of `settings_load`'s scan loop: the record is treated
as erased (scan continues) exactly when its version byte and checksum byte
are both 0xFF. -/
def slotEmpty (r : List Nat) : Bool :=
  byteAt r 1 == 0xff && byteAt r 0 == 0xff

/-- Copy a valid record into the live settings, as the tail of
`settings_load` does: all fields are overwritten from the record except the
picture controls, which are taken from the record only for `version >= 5`
and otherwise keep their previous values. -/
def applyRecord (r : List Nat) (prev : Settings) : Settings where
  video_settings :=
    [word32At r 4, word32At r 8, word32At r 12,
     word32At r 16, word32At r 20, word32At r 24]
  osdbg_settings    := word32At r 28
  mode_switch_delay := word32At r 32
  resbox_enabled    := (byteAt r 2).testBit 0
  audio_volume      := byteAt r 3 % 2^8
  audio_mute        := (byteAt r 2).testBit 1
  ir_codes :=
    [word32At r 36, word32At r 40, word32At r 44,
     word32At r 48, word32At r 52, word32At r 56]
  picture_brightness :=
    if 5 ≤ byteAt r 1 then int8OfByte (byteAt r 60) else prev.picture_brightness
  picture_contrast :=
    if 5 ≤ byteAt r 1 then int8OfByte (byteAt r 61) else prev.picture_contrast
  picture_saturation :=
    if 5 ≤ byteAt r 1 then int8OfByte (byteAt r 62) else prev.picture_saturation

/-- A sector: the 64-byte read buffers of the 256 slots, in slot order. -/
def Sector : Type := List (List Nat)

/-- Slot `i` of a sector. -/
def slotOf (sec : Sector) (i : Nat) : List Nat := sec.getD i []

/-- The scan loop of `settings_load`, starting at slot `i` with `fuel`
iterations remaining: stop with `(some i, i)` at the first slot passing the
checksum test, stop with `(none, i)` at the first invalid slot that is not
erased, continue otherwise; when the loop runs out (`i` reaches 256) the
result is `(none, 256)`. -/
def scanFrom (sec : Sector) (i : Nat) : Nat → Option Nat × Nat
  | 0 => (none, i)
  | fuel + 1 =>
    if slotValid (slotOf sec i) then (some i, i)
    else if !slotEmpty (slotOf sec i) then (none, i)
    else scanFrom sec (i + 1) fuel

/-- Locate-newest: the full scan over the 256 slots. -/
def locateNewest (sec : Sector) : Option Nat × Nat := scanFrom sec 0 256

/-- `settings_load`: scan the sector; always store the final loop index in
`current_setid`; copy the found record into the live settings only when the
scan succeeded. -/
def settings_load (sec : Sector) (prev : Settings) : Settings × Nat :=
  match locateNewest sec with
  | (some i, id) => (applyRecord (slotOf sec i) prev, id)
  | (none, id) => (prev, id)

/-- The state owned by the rotational log store: the flash sector, the
`current_setid` cursor, and an instrumentation counter of the
`spiflash_erase_sector` calls performed. -/
structure Store where
  sector : Sector
  cursor : Nat
  erases : Nat

/-- A slot in its erased state: the 64 bytes read from it are all 0xFF. -/
def erasedSlot : List Nat := List.replicate 64 0xff

/-- A freshly erased sector. -/
def erasedSector : Sector := List.replicate 256 erasedSlot

/-- `settings_save`: encode the live settings as a V5 record; if the cursor
is 0, erase the sector and reset the cursor to 256; then decrement the
cursor and program the record into the slot it now points at. -/
def settings_save (s : Settings) (st : Store) : Store :=
  let r := encodeV5 s
  let st1 : Store :=
    if st.cursor = 0 then ⟨erasedSector, 256, st.erases + 1⟩ else st
  ⟨st1.sector.set (st1.cursor - 1) r, st1.cursor - 1, st1.erases⟩

/-- `k` consecutive `settings_save` calls, the `n`-th one persisting the
settings `seq n`. -/
def applySaves (seq : Nat → Settings) : Nat → Store → Store
  | 0, st => st
  | k + 1, st => settings_save (seq k) (applySaves seq k st)

/-- Flip bit `k` of byte `j` of a buffer. -/
def flipBit (r : List Nat) (j k : Nat) : List Nat :=
  r.set j (byteAt r j ^^^ 2^k)

/-! ### Concrete sample data used by witnesses and counterexamples -/

/-- A sample settings state within all field ranges. -/
def sample1 : Settings :=
  ⟨[0x80, 0x81, 0x1234, 0xdeadbeef, 0x80, 0x80], 0x501bf8, 7, true, 200, false,
   [1, 2, 3, 0xffffffff, 5, 6], -3, 100, -128⟩

/-- A sample previous live state whose picture controls hold the
neutral/zero defaults assigned by `settings_init`. -/
def samplePrev : Settings :=
  ⟨[0, 0, 0, 0, 0, 0], 0, 0, true, 255, false, [0, 0, 0, 0, 0, 0], 0, 0, 0⟩

/-- A fully written, invalid slot: every byte zero (version 0 is not
recognized, and the slot is not in the erased state). -/
def corruptZeroSlot : List Nat := List.replicate 64 0

/-- An invalid slot whose checksum and version bytes read 0xFF but whose
flags byte has been written. -/
def writtenFlagsSlot : List Nat := 0xff :: 0xff :: 0 :: List.replicate 61 0xff

/-- A settings state whose picture-control bytes sum to 255 mod 256
(brightness -1 is stored as byte 0xFF): flipping the low bit of the version
byte of its V5 record produces a record that still validates, as a V4
record. -/
def sample4 : Settings :=
  ⟨[0, 0, 0, 0, 0, 0], 0, 0, false, 0, false, [0, 0, 0, 0, 0, 0], -1, 0, 0⟩

/-! ### Helper lemmas about the codec -/

lemma word32_bytes (w : Nat) (h : w < 2^32) :
    w % 2^8 + 2^8 * (w / 2^8 % 2^8) + 2^16 * (w / 2^16 % 2^8) + 2^24 * (w / 2^24 % 2^8) = w := by
  omega

lemma len6 {l : List Nat} (h : l.length = 6) :
    ∃ a b c d e f, l = [a, b, c, d, e, f] := by
  rcases l with _ | ⟨a, l⟩; · simp at h
  rcases l with _ | ⟨b, l⟩; · simp at h
  rcases l with _ | ⟨c, l⟩; · simp at h
  rcases l with _ | ⟨d, l⟩; · simp at h
  rcases l with _ | ⟨e, l⟩; · simp at h
  rcases l with _ | ⟨f, l⟩; · simp at h
  rcases l with _ | ⟨g, l⟩
  · exact ⟨a, b, c, d, e, f, rfl⟩
  · simp at h

lemma int8_roundtrip (x : Int) (h1 : -128 ≤ x) (h2 : x < 128) :
    int8OfByte (int8ToByte x) = x := by
  unfold int8OfByte int8ToByte
  split <;> omega

lemma slotValid_encodeV5 (s : Settings) (h : ValidSettings s) :
    slotValid (encodeV5 s) = true := by
  obtain ⟨vl, osd, dly, rb, vol, mute, il, pb, pc, ps⟩ := s
  obtain ⟨h1, h2, h3, h4, h5, h6, h7, h8⟩ := h
  obtain ⟨v0, v1, v2, v3, v4, v5, hv⟩ := len6 h1
  obtain ⟨i0, i1, i2, i3, i4, i5, hi⟩ := len6 h6
  subst hv hi
  simp only [slotValid, Bool.and_eq_true, Bool.or_eq_true, beq_iff_eq, bne_iff_ne]
  have hrs : recordSize (byteAt (encodeV5
      ⟨[v0, v1, v2, v3, v4, v5], osd, dly, rb, vol, mute,
        [i0, i1, i2, i3, i4, i5], pb, pc, ps⟩) 1) = 63 := rfl
  refine ⟨Or.inl rfl, by rw [hrs]; omega, ?_⟩
  rw [hrs]
  rfl

lemma slotValid_encodeV4 (s : Settings) (h : ValidSettings s) :
    slotValid (encodeV4 s) = true := by
  obtain ⟨vl, osd, dly, rb, vol, mute, il, pb, pc, ps⟩ := s
  obtain ⟨h1, h2, h3, h4, h5, h6, h7, h8⟩ := h
  obtain ⟨v0, v1, v2, v3, v4, v5, hv⟩ := len6 h1
  obtain ⟨i0, i1, i2, i3, i4, i5, hi⟩ := len6 h6
  subst hv hi
  simp only [slotValid, Bool.and_eq_true, Bool.or_eq_true, beq_iff_eq, bne_iff_ne]
  have hrs : recordSize (byteAt (encodeV4
      ⟨[v0, v1, v2, v3, v4, v5], osd, dly, rb, vol, mute,
        [i0, i1, i2, i3, i4, i5], pb, pc, ps⟩) 1) = 60 := rfl
  refine ⟨Or.inr rfl, by rw [hrs]; omega, ?_⟩
  rw [hrs]
  rfl

lemma applyRecord_encodeV5 (s prev : Settings) (h : ValidSettings s) :
    applyRecord (encodeV5 s) prev = s := by
  obtain ⟨vl, osd, dly, rb, vol, mute, il, pb, pc, ps⟩ := s
  obtain ⟨h1, h2, h3, h4, h5, h6, h7, hb1, hb2, hc1, hc2, hs1, hs2⟩ := h
  obtain ⟨v0, v1, v2, v3, v4, v5, hv⟩ := len6 h1
  obtain ⟨i0, i1, i2, i3, i4, i5, hi⟩ := len6 h6
  subst hv hi
  have hv0 : v0 < 2^32 := h2 _ (by simp)
  have hv1 : v1 < 2^32 := h2 _ (by simp)
  have hv2 : v2 < 2^32 := h2 _ (by simp)
  have hv3 : v3 < 2^32 := h2 _ (by simp)
  have hv4 : v4 < 2^32 := h2 _ (by simp)
  have hv5 : v5 < 2^32 := h2 _ (by simp)
  have hi0 : i0 < 2^32 := h7 _ (by simp)
  have hi1 : i1 < 2^32 := h7 _ (by simp)
  have hi2 : i2 < 2^32 := h7 _ (by simp)
  have hi3 : i3 < 2^32 := h7 _ (by simp)
  have hi4 : i4 < 2^32 := h7 _ (by simp)
  have hi5 : i5 < 2^32 := h7 _ (by simp)
  replace h5 : vol < 2^8 := h5
  simp only [applyRecord, encodeV5, encodeBody, le32, flagsByte, word32At, byteAt,
    SETTINGS_VERSION, List.map_cons, List.map_nil, List.flatten_cons, List.flatten_nil,
    List.cons_append, List.nil_append, List.append_nil,
    List.getD_cons_zero, List.getD_cons_succ, Settings.mk.injEq]
  refine ⟨?_, ?_, ?_, ?_, ?_, ?_, ?_, ?_, ?_, ?_⟩
  · simp only [List.cons.injEq, and_true]
    exact ⟨word32_bytes _ hv0, word32_bytes _ hv1, word32_bytes _ hv2,
           word32_bytes _ hv3, word32_bytes _ hv4, word32_bytes _ hv5⟩
  · exact word32_bytes _ h3
  · exact word32_bytes _ h4
  · cases rb <;> cases mute <;> simp
  · omega
  · cases rb <;> cases mute <;> simp <;> decide
  · simp only [List.cons.injEq, and_true]
    exact ⟨word32_bytes _ hi0, word32_bytes _ hi1, word32_bytes _ hi2,
           word32_bytes _ hi3, word32_bytes _ hi4, word32_bytes _ hi5⟩
  · simp only [if_pos (by omega : (5:Nat) ≤ 5)]
    exact int8_roundtrip _ hb1 hb2
  · simp only [if_pos (by omega : (5:Nat) ≤ 5)]
    exact int8_roundtrip _ hc1 hc2
  · simp only [if_pos (by omega : (5:Nat) ≤ 5)]
    exact int8_roundtrip _ hs1 hs2

lemma applyRecord_encodeV4 (s prev : Settings) (h : ValidSettings s) :
    applyRecord (encodeV4 s) prev =
      { s with picture_brightness := prev.picture_brightness,
               picture_contrast   := prev.picture_contrast,
               picture_saturation := prev.picture_saturation } := by
  obtain ⟨vl, osd, dly, rb, vol, mute, il, pb, pc, ps⟩ := s
  obtain ⟨h1, h2, h3, h4, h5, h6, h7, hb1, hb2, hc1, hc2, hs1, hs2⟩ := h
  obtain ⟨v0, v1, v2, v3, v4, v5, hv⟩ := len6 h1
  obtain ⟨i0, i1, i2, i3, i4, i5, hi⟩ := len6 h6
  subst hv hi
  have hv0 : v0 < 2^32 := h2 _ (by simp)
  have hv1 : v1 < 2^32 := h2 _ (by simp)
  have hv2 : v2 < 2^32 := h2 _ (by simp)
  have hv3 : v3 < 2^32 := h2 _ (by simp)
  have hv4 : v4 < 2^32 := h2 _ (by simp)
  have hv5 : v5 < 2^32 := h2 _ (by simp)
  have hi0 : i0 < 2^32 := h7 _ (by simp)
  have hi1 : i1 < 2^32 := h7 _ (by simp)
  have hi2 : i2 < 2^32 := h7 _ (by simp)
  have hi3 : i3 < 2^32 := h7 _ (by simp)
  have hi4 : i4 < 2^32 := h7 _ (by simp)
  have hi5 : i5 < 2^32 := h7 _ (by simp)
  replace h5 : vol < 2^8 := h5
  simp only [applyRecord, encodeV4, encodeBody, le32, flagsByte, word32At, byteAt,
    List.map_cons, List.map_nil, List.flatten_cons, List.flatten_nil,
    List.cons_append, List.nil_append, List.append_nil,
    List.getD_cons_zero, List.getD_cons_succ, Settings.mk.injEq]
  refine ⟨?_, ?_, ?_, ?_, ?_, ?_, ?_, ?_, ?_, ?_⟩
  · simp only [List.cons.injEq, and_true]
    exact ⟨word32_bytes _ hv0, word32_bytes _ hv1, word32_bytes _ hv2,
           word32_bytes _ hv3, word32_bytes _ hv4, word32_bytes _ hv5⟩
  · exact word32_bytes _ h3
  · exact word32_bytes _ h4
  · cases rb <;> cases mute <;> simp
  · omega
  · cases rb <;> cases mute <;> simp <;> decide
  · simp only [List.cons.injEq, and_true]
    exact ⟨word32_bytes _ hi0, word32_bytes _ hi1, word32_bytes _ hi2,
           word32_bytes _ hi3, word32_bytes _ hi4, word32_bytes _ hi5⟩
  · simp only [if_neg (by omega : ¬ (5:Nat) ≤ 4)]
  · simp only [if_neg (by omega : ¬ (5:Nat) ≤ 4)]
  · simp only [if_neg (by omega : ¬ (5:Nat) ≤ 4)]

/-! ### Helper lemmas about the scan loop -/

lemma slotOf_cons_zero (r : List Nat) (l : Sector) : slotOf (r :: l) 0 = r := rfl

lemma slotOf_cons_succ (r : List Nat) (l : Sector) (i : Nat) :
    slotOf (r :: l) (i + 1) = slotOf l i := rfl

lemma slotValid_erasedSlot : slotValid erasedSlot = false := by decide

lemma slotEmpty_erasedSlot : slotEmpty erasedSlot = true := by decide

lemma scan_stop_valid {sec : Sector} {i fuel : Nat}
    (h : slotValid (slotOf sec i) = true) :
    scanFrom sec i (fuel + 1) = (some i, i) := by
  simp [scanFrom, h]

lemma scan_stop_corrupt {sec : Sector} {i fuel : Nat}
    (h1 : slotValid (slotOf sec i) = false) (h2 : slotEmpty (slotOf sec i) = false) :
    scanFrom sec i (fuel + 1) = (none, i) := by
  simp [scanFrom, h1, h2]

lemma scan_skip {sec : Sector} {i fuel : Nat}
    (h1 : slotValid (slotOf sec i) = false) (h2 : slotEmpty (slotOf sec i) = true) :
    scanFrom sec i (fuel + 1) = scanFrom sec (i + 1) fuel := by
  simp [scanFrom, h1, h2]

set_option maxRecDepth 4000 in
lemma locateNewest_erasedSector : locateNewest erasedSector = (none, 256) := rfl

lemma settings_load_of_none {sec : Sector} {prev : Settings} {id : Nat}
    (h : locateNewest sec = (none, id)) :
    settings_load sec prev = (prev, id) := by
  simp [settings_load, h]

lemma settings_load_of_some {sec : Sector} {prev : Settings} {i : Nat}
    (h : locateNewest sec = (some i, i)) :
    settings_load sec prev = (applyRecord (slotOf sec i) prev, i) := by
  simp [settings_load, h]

/-! ### Helper lemmas for the checksum-sensitivity claim -/

lemma sum_take_set : ∀ (l : List Nat) (i n x : Nat), i < n → i < l.length →
    ((l.set i x).take n).sum + l.getD i 0 = (l.take n).sum + x
  | [], i, n, x, _, h2 => by simp at h2
  | a :: t, 0, n, x, h1, _ => by
    obtain ⟨m, rfl⟩ : ∃ m, n = m + 1 := ⟨n - 1, by omega⟩
    simp only [List.set_cons_zero, List.take_succ_cons, List.sum_cons, List.getD_cons_zero]
    omega
  | a :: t, i + 1, n, x, h1, h2 => by
    obtain ⟨m, rfl⟩ : ∃ m, n = m + 1 := ⟨n - 1, by omega⟩
    have ih := sum_take_set t i m x (by omega) (by simp at h2; omega)
    simp only [List.set_cons_succ, List.take_succ_cons, List.sum_cons, List.getD_cons_succ]
    omega

lemma xor_two_pow_ne (b k : Nat) : b ^^^ 2^k ≠ b := by
  intro he
  have h2 := congrArg (fun m => Nat.testBit m k) he
  simp only [Nat.testBit_xor, Nat.testBit_two_pow_self] at h2
  cases hb : Nat.testBit b k <;> rw [hb] at h2 <;> simp at h2

lemma byteAt_lt_of_mem (l : List Nat) (h : ∀ x ∈ l, x < 256) (i : Nat) :
    byteAt l i < 256 := by
  unfold byteAt
  rcases Nat.lt_or_ge i l.length with hi | hi
  · rw [List.getD_eq_getElem?_getD, List.getElem?_eq_getElem hi, Option.getD_some]
    exact h _ (List.getElem_mem hi)
  · rw [List.getD_eq_getElem?_getD, List.getElem?_eq_none (by omega), Option.getD_none]
    omega

lemma le32_mem_lt (w : Nat) : ∀ x ∈ le32 w, x < 256 := by
  intro x hx
  simp only [le32, List.mem_cons, List.not_mem_nil, or_false] at hx
  rcases hx with rfl | rfl | rfl | rfl <;> omega

lemma encodeBody_mem_lt (ver : Nat) (s : Settings) (pic : List Nat)
    (hv : ver < 256) (hp : ∀ x ∈ pic, x < 256) :
    ∀ x ∈ encodeBody ver s pic, x < 256 := by
  intro x hx
  simp only [encodeBody, List.mem_cons, List.mem_append, List.mem_flatten,
    List.mem_map] at hx
  rcases hx with rfl | rfl | rfl | hx
  · exact hv
  · unfold flagsByte; split <;> split <;> omega
  · exact Nat.mod_lt _ (by omega)
  · rcases hx with (((⟨l1, ⟨w, hw, rfl⟩, hx⟩ | hx) | hx) | ⟨l1, ⟨w, hw, rfl⟩, hx⟩) | hx
    · exact le32_mem_lt w x hx
    · exact le32_mem_lt _ x hx
    · exact le32_mem_lt _ x hx
    · exact le32_mem_lt w x hx
    · exact hp x hx

lemma encodeV5_byte_lt (s : Settings) (j : Nat) : byteAt (encodeV5 s) j < 256 := by
  cases j with
  | zero => exact Nat.mod_lt _ (by omega)
  | succ i =>
    have hb := encodeBody_mem_lt SETTINGS_VERSION s
      [int8ToByte s.picture_brightness, int8ToByte s.picture_contrast,
       int8ToByte s.picture_saturation, 0]
      (by unfold SETTINGS_VERSION; omega)
      (by
        intro x hx
        simp only [List.mem_cons, List.not_mem_nil, or_false] at hx
        rcases hx with rfl | rfl | rfl | rfl
        · unfold int8ToByte; omega
        · unfold int8ToByte; omega
        · unfold int8ToByte; omega
        · omega)
    exact byteAt_lt_of_mem _ hb i

lemma encodeV4_byte_lt (s : Settings) (j : Nat) : byteAt (encodeV4 s) j < 256 := by
  cases j with
  | zero => exact Nat.mod_lt _ (by omega)
  | succ i =>
    have hb := encodeBody_mem_lt 4 s [0, 0, 0, 0] (by omega)
      (by
        intro x hx
        simp only [List.mem_cons, List.not_mem_nil, or_false] at hx
        rcases hx with rfl | rfl | rfl | rfl <;> omega)
    exact byteAt_lt_of_mem _ hb i

lemma byteAt_flipBit_ne (r : List Nat) (j k i : Nat) (hij : i ≠ j) :
    byteAt (flipBit r j k) i = byteAt r i := by
  simp [flipBit, byteAt, List.getD_eq_getElem?_getD, List.getElem?_set_ne (Ne.symm hij)]

lemma byteAt_flipBit_self (r : List Nat) (j k : Nat) (hj : j < r.length) :
    byteAt (flipBit r j k) j = byteAt r j ^^^ 2^k := by
  unfold flipBit byteAt
  rw [List.getD_eq_getElem?_getD, List.getElem?_set_self hj, Option.getD_some]

lemma slotValid_eq_false_of_chk_ne (r : List Nat)
    (hne : chkSum r (recordSize (byteAt r 1)) ≠ byteAt r 0) : slotValid r = false := by
  have hb : (chkSum r (recordSize (byteAt r 1)) == byteAt r 0) = false :=
    beq_eq_false_iff_ne.mpr hne
  simp [slotValid, hb]

lemma slotValid_eq_false_of_bad_version (r : List Nat)
    (h5 : byteAt r 1 ≠ 5) (h4 : byteAt r 1 ≠ 4) : slotValid r = false := by
  have b5 : (byteAt r 1 == SETTINGS_VERSION) = false := by
    refine beq_eq_false_iff_ne.mpr ?_
    unfold SETTINGS_VERSION
    exact h5
  have b4 : (byteAt r 1 == 4) = false := beq_eq_false_iff_ne.mpr h4
  simp [slotValid, b5, b4]

lemma chkSum_flip_sum (r : List Nat) (size j k : Nat)
    (hj1 : 1 ≤ j) (hjs : j < size) (hlen : size ≤ r.length) :
    (((flipBit r j k).drop 1).take (size - 1)).sum + byteAt r j
      = (((r.drop 1).take (size - 1)).sum) + (byteAt r j ^^^ 2^k) := by
  unfold flipBit
  rw [List.drop_set, if_neg (by omega)]
  have hgd : (r.drop 1).getD (j - 1) 0 = byteAt r j := by
    unfold byteAt
    rw [List.getD_eq_getElem?_getD, List.getD_eq_getElem?_getD, List.getElem?_drop,
        show 1 + (j - 1) = j by omega]
  rw [← hgd]
  exact sum_take_set (r.drop 1) (j - 1) (size - 1) _ (by omega)
    (by rw [List.length_drop]; omega)

lemma slotValid_flip_mid (r : List Nat) (size j k : Nat)
    (hval : chkSum r size = byteAt r 0)
    (hsm : recordSize (byteAt r 1) = size)
    (hj : 2 ≤ j) (hjs : j < size) (hk : k < 8)
    (hlen : size ≤ r.length)
    (hbyte : byteAt r j < 256) :
    slotValid (flipBit r j k) = false := by
  apply slotValid_eq_false_of_chk_ne
  rw [byteAt_flipBit_ne r j k 1 (by omega), hsm,
      byteAt_flipBit_ne r j k 0 (by omega), ← hval]
  unfold chkSum
  intro heq
  have hsum := chkSum_flip_sum r size j k (by omega) hjs hlen
  have hb' : byteAt r j ^^^ 2^k < 256 :=
    Nat.xor_lt_two_pow hbyte
      (Nat.pow_lt_pow_right (by omega) hk)
  have hne := xor_two_pow_ne (byteAt r j) k
  omega

lemma slotValid_flip_zero (r : List Nat) (size k : Nat)
    (hval : chkSum r size = byteAt r 0)
    (hsm : recordSize (byteAt r 1) = size)
    (hr : 0 < r.length) :
    slotValid (flipBit r 0 k) = false := by
  apply slotValid_eq_false_of_chk_ne
  rw [byteAt_flipBit_ne r 0 k 1 (by omega), hsm,
      byteAt_flipBit_self r 0 k hr]
  have hchk : chkSum (flipBit r 0 k) size = chkSum r size := by
    unfold chkSum flipBit
    rw [List.drop_set, if_pos (by omega)]
  rw [hchk, hval]
  exact fun he => xor_two_pow_ne _ k he.symm

lemma encodeV5_length (s : Settings) (h : ValidSettings s) :
    (encodeV5 s).length = 64 := by
  obtain ⟨vl, osd, dly, rb, vol, mute, il, pb, pc, ps⟩ := s
  obtain ⟨v0, v1, v2, v3, v4, v5, hv⟩ := len6 h.1
  obtain ⟨i0, i1, i2, i3, i4, i5, hi⟩ := len6 h.2.2.2.2.2.1
  subst hv hi
  rfl

lemma encodeV4_length (s : Settings) (h : ValidSettings s) :
    (encodeV4 s).length = 64 := by
  obtain ⟨vl, osd, dly, rb, vol, mute, il, pb, pc, ps⟩ := s
  obtain ⟨v0, v1, v2, v3, v4, v5, hv⟩ := len6 h.1
  obtain ⟨i0, i1, i2, i3, i4, i5, hi⟩ := len6 h.2.2.2.2.2.1
  subst hv hi
  rfl

lemma chkSum_encodeV5 (s : Settings) (h : ValidSettings s) :
    chkSum (encodeV5 s) 63 = byteAt (encodeV5 s) 0 := by
  have hv := slotValid_encodeV5 s h
  simp only [slotValid, Bool.and_eq_true, Bool.or_eq_true, beq_iff_eq,
    bne_iff_ne] at hv
  rw [show byteAt (encodeV5 s) 1 = 5 from rfl] at hv
  rw [show recordSize 5 = 63 from rfl] at hv
  exact hv.2.2

lemma chkSum_encodeV4 (s : Settings) (h : ValidSettings s) :
    chkSum (encodeV4 s) 60 = byteAt (encodeV4 s) 0 := by
  have hv := slotValid_encodeV4 s h
  simp only [slotValid, Bool.and_eq_true, Bool.or_eq_true, beq_iff_eq,
    bne_iff_ne] at hv
  rw [show byteAt (encodeV4 s) 1 = 4 from rfl] at hv
  rw [show recordSize 4 = 60 from rfl] at hv
  exact hv.2.2

lemma slotValid_flip_version_V4_core (r : List Nat)
    (hlen : r.length = 64)
    (hb1 : byteAt r 1 = 4)
    (hval : chkSum r 60 = byteAt r 0)
    (hS : chkSum r 63 = chkSum r 60) :
    slotValid (flipBit r 1 0) = false := by
  apply slotValid_eq_false_of_chk_ne
  have hv1 : byteAt (flipBit r 1 0) 1 = 5 := by
    rw [byteAt_flipBit_self r 1 0 (by omega), hb1]
    decide
  rw [hv1, show recordSize 5 = 63 from rfl, byteAt_flipBit_ne r 1 0 0 (by omega)]
  have hsum := chkSum_flip_sum r 63 1 0 (by omega) (by omega) (by omega)
  rw [hb1, (by decide : (4 : Nat) ^^^ 2^0 = 5)] at hsum
  unfold chkSum at hS hval ⊢
  intro heq
  omega

lemma slotValid_flip_version_V4 (s : Settings) (h : ValidSettings s) :
    slotValid (flipBit (encodeV4 s) 1 0) = false := by
  obtain ⟨vl, osd, dly, rb, vol, mute, il, pb, pc, ps⟩ := s
  obtain ⟨v0, v1, v2, v3, v4, v5, hv⟩ := len6 h.1
  obtain ⟨i0, i1, i2, i3, i4, i5, hi⟩ := len6 h.2.2.2.2.2.1
  subst hv hi
  exact slotValid_flip_version_V4_core _ (encodeV4_length _ h) rfl
    (chkSum_encodeV4 _ h) rfl

/-! ### Claims -/

/-- C1: Round-trip of the record codec.  Encoding any valid settings state
the way `settings_save` does yields a record that passes `settings_load`'s
validation, and copying it back the way `settings_load` does restores
exactly the same state; the legacy V4 record (spec-modelled encoder, same
layout truncated at 60 bytes) also passes validation and restores every
field except the picture controls, which come out at their zero defaults
when the pre-load live state holds the defaults. -/
theorem claim_C1_roundtrip (s prev : Settings) (h : ValidSettings s)
    (hb : prev.picture_brightness = 0) (hc : prev.picture_contrast = 0)
    (hs : prev.picture_saturation = 0) :
    (slotValid (encodeV5 s) = true ∧ applyRecord (encodeV5 s) prev = s) ∧
    (slotValid (encodeV4 s) = true ∧
     applyRecord (encodeV4 s) prev =
       { s with picture_brightness := 0, picture_contrast := 0,
                picture_saturation := 0 }) := by
  refine ⟨⟨slotValid_encodeV5 s h, applyRecord_encodeV5 s prev h⟩,
          slotValid_encodeV4 s h, ?_⟩
  rw [applyRecord_encodeV4 s prev h, hb, hc, hs]

/-- Witness for C1 at a concrete settings state. -/
theorem claim_C1_witness :
    (slotValid (encodeV5 sample1) = true ∧
     applyRecord (encodeV5 sample1) samplePrev = sample1) ∧
    (slotValid (encodeV4 sample1) = true ∧
     applyRecord (encodeV4 sample1) samplePrev =
       { sample1 with picture_brightness := 0, picture_contrast := 0,
                      picture_saturation := 0 }) :=
  claim_C1_roundtrip sample1 samplePrev (by decide) rfl rfl rfl

/-- C5: Version migration: loading a valid legacy V4 record populates the
per-mode video settings, OSD background, mode-switch delay, resbox flag,
volume, mute flag and IR codes from the record, and leaves the picture
controls at the zero defaults the live state held before the load, without
touching any other field. -/
theorem claim_C5_migration (s prev : Settings) (rest : Sector)
    (h : ValidSettings s)
    (hb : prev.picture_brightness = 0) (hc : prev.picture_contrast = 0)
    (hs : prev.picture_saturation = 0) :
    settings_load (encodeV4 s :: rest) prev =
      ({ s with picture_brightness := 0, picture_contrast := 0,
                picture_saturation := 0 }, 0) := by
  have h0 : slotValid (slotOf (encodeV4 s :: rest) 0) = true := slotValid_encodeV4 s h
  have hloc : locateNewest (encodeV4 s :: rest) = (some 0, 0) := scan_stop_valid h0
  rw [settings_load_of_some hloc, slotOf_cons_zero,
      applyRecord_encodeV4 s prev h, hb, hc, hs]

/-- Witness for C5 at a concrete V4 record. -/
theorem claim_C5_witness :
    settings_load (encodeV4 sample1 :: []) samplePrev =
      ({ sample1 with picture_brightness := 0, picture_contrast := 0,
                      picture_saturation := 0 }, 0) :=
  claim_C5_migration sample1 samplePrev [] (by decide) rfl rfl rfl

/-- C9: Load is atomic on failure: when the scan finds no valid record,
every live settings variable is left unchanged and only the cursor
`current_setid` is recomputed. -/
theorem claim_C9_atomic_failure (sec : Sector) (prev : Settings)
    (h : (locateNewest sec).1 = none) :
    (settings_load sec prev).1.video_settings = prev.video_settings ∧
    (settings_load sec prev).1.osdbg_settings = prev.osdbg_settings ∧
    (settings_load sec prev).1.mode_switch_delay = prev.mode_switch_delay ∧
    (settings_load sec prev).1.resbox_enabled = prev.resbox_enabled ∧
    (settings_load sec prev).1.audio_volume = prev.audio_volume ∧
    (settings_load sec prev).1.audio_mute = prev.audio_mute ∧
    (settings_load sec prev).1.ir_codes = prev.ir_codes ∧
    (settings_load sec prev).1.picture_brightness = prev.picture_brightness ∧
    (settings_load sec prev).1.picture_contrast = prev.picture_contrast ∧
    (settings_load sec prev).1.picture_saturation = prev.picture_saturation ∧
    (settings_load sec prev).2 = (locateNewest sec).2 := by
  have hload : settings_load sec prev = (prev, (locateNewest sec).2) := by
    rcases e : locateNewest sec with ⟨o, id⟩
    rcases o with _ | i
    · simp [settings_load, e]
    · rw [e] at h; simp at h
  rw [hload]
  exact ⟨rfl, rfl, rfl, rfl, rfl, rfl, rfl, rfl, rfl, rfl, rfl⟩

/-- Witness for C9 on a fully erased sector. -/
theorem claim_C9_witness :
    (settings_load erasedSector samplePrev).1.video_settings = samplePrev.video_settings ∧
    (settings_load erasedSector samplePrev).1.osdbg_settings = samplePrev.osdbg_settings ∧
    (settings_load erasedSector samplePrev).1.mode_switch_delay = samplePrev.mode_switch_delay ∧
    (settings_load erasedSector samplePrev).1.resbox_enabled = samplePrev.resbox_enabled ∧
    (settings_load erasedSector samplePrev).1.audio_volume = samplePrev.audio_volume ∧
    (settings_load erasedSector samplePrev).1.audio_mute = samplePrev.audio_mute ∧
    (settings_load erasedSector samplePrev).1.ir_codes = samplePrev.ir_codes ∧
    (settings_load erasedSector samplePrev).1.picture_brightness = samplePrev.picture_brightness ∧
    (settings_load erasedSector samplePrev).1.picture_contrast = samplePrev.picture_contrast ∧
    (settings_load erasedSector samplePrev).1.picture_saturation = samplePrev.picture_saturation ∧
    (settings_load erasedSector samplePrev).2 = (locateNewest erasedSector).2 :=
  claim_C9_atomic_failure erasedSector samplePrev
    (by rw [locateNewest_erasedSector])

/-- C3 (counterexample to the claim as stated): a slot whose checksum and
version bytes read 0xFF but whose flags byte has been written is treated as
erased — the scan continues past it and finds the valid record in the next
slot, instead of stopping as the claim requires for any slot with a written
byte. -/
theorem claim_C3_counterexample :
    slotValid writtenFlagsSlot = false ∧
    byteAt writtenFlagsSlot 2 ≠ 0xff ∧
    locateNewest (writtenFlagsSlot :: encodeV5 sample1 ::
      List.replicate 254 erasedSlot) = (some 1, 1) := by
  decide

/-- C3 (amended): when a slot fails to decode as a valid record, the scan
continues to the next slot exactly when the slot's checksum byte (offset 0)
and version byte (offset 1) both equal the fill value 0xFF; otherwise it
stops there and reports no record.  Bytes past the first two are not
examined for this decision. -/
theorem claim_C3_amended (sec : Sector) (i fuel : Nat)
    (h : slotValid (slotOf sec i) = false) :
    scanFrom sec i (fuel + 1) =
      (if byteAt (slotOf sec i) 0 = 0xff ∧ byteAt (slotOf sec i) 1 = 0xff
       then scanFrom sec (i + 1) fuel
       else (none, i)) := by
  by_cases hcond : byteAt (slotOf sec i) 0 = 0xff ∧ byteAt (slotOf sec i) 1 = 0xff
  · have hE : slotEmpty (slotOf sec i) = true := by
      simp [slotEmpty, hcond.1, hcond.2]
    rw [if_pos hcond]
    exact scan_skip h hE
  · have hE : slotEmpty (slotOf sec i) = false := by
      cases hE2 : slotEmpty (slotOf sec i)
      · rfl
      · exfalso
        apply hcond
        simp only [slotEmpty, Bool.and_eq_true, beq_iff_eq] at hE2
        exact ⟨hE2.2, hE2.1⟩
    rw [if_neg hcond]
    exact scan_stop_corrupt h hE

/-- Witness for the amended C3 at a concrete invalid slot. -/
theorem claim_C3_witness :
    scanFrom (writtenFlagsSlot :: []) 0 (5 + 1) =
      (if byteAt (slotOf (writtenFlagsSlot :: []) 0) 0 = 0xff ∧
          byteAt (slotOf (writtenFlagsSlot :: []) 0) 1 = 0xff
       then scanFrom (writtenFlagsSlot :: []) (0 + 1) 5
       else (none, 0)) :=
  claim_C3_amended (writtenFlagsSlot :: []) 0 5 (by decide)

/-- C2 (counterexample to the claim as stated): with slot 0 erased, slot 1
holding a fully valid record and slot 2 holding a corrupted non-empty
record, the ascending scan encounters slot 1 first and returns its record —
it does not report no-record as the claim states. -/
theorem claim_C2_counterexample :
    slotValid (encodeV5 sample1) = true ∧
    slotValid corruptZeroSlot = false ∧
    slotEmpty corruptZeroSlot = false ∧
    locateNewest (erasedSlot :: encodeV5 sample1 :: corruptZeroSlot ::
      List.replicate 253 erasedSlot) = (some 1, 1) := by
  decide

/-- C2 (amended): the scan-stop-on-corruption behaviour holds with the slot
roles matching the ascending scan order: if slot 1 holds a corrupted
non-empty record and slot 2 a fully valid one (slot 0 erased), Locate-newest
reports no-record with the cursor at slot 1 — it does not skip past the
corrupt slot 1 to find the valid record in slot 2. -/
theorem claim_C2_amended (r : List Nat) (rest : Sector) (s prev : Settings)
    (hr1 : slotValid r = false) (hr2 : slotEmpty r = false)
    (h : ValidSettings s) :
    slotValid (encodeV5 s) = true ∧
    locateNewest (erasedSlot :: r :: encodeV5 s :: rest) = (none, 1) ∧
    settings_load (erasedSlot :: r :: encodeV5 s :: rest) prev = (prev, 1) := by
  have hloc : locateNewest (erasedSlot :: r :: encodeV5 s :: rest) = (none, 1) := by
    have e1 : scanFrom (erasedSlot :: r :: encodeV5 s :: rest) 0 256
            = scanFrom (erasedSlot :: r :: encodeV5 s :: rest) 1 255 :=
      scan_skip slotValid_erasedSlot slotEmpty_erasedSlot
    have e2 : scanFrom (erasedSlot :: r :: encodeV5 s :: rest) 1 255 = (none, 1) :=
      scan_stop_corrupt hr1 hr2
    exact e1.trans e2
  exact ⟨slotValid_encodeV5 s h, hloc, settings_load_of_none hloc⟩

/-- Witness for the amended C2 at concrete slots. -/
theorem claim_C2_witness :
    slotValid (encodeV5 sample1) = true ∧
    locateNewest (erasedSlot :: corruptZeroSlot :: encodeV5 sample1 :: []) = (none, 1) ∧
    settings_load (erasedSlot :: corruptZeroSlot :: encodeV5 sample1 :: []) samplePrev
      = (samplePrev, 1) :=
  claim_C2_amended corruptZeroSlot [] sample1 samplePrev
    (by decide) (by decide) (by decide)

/-- C8: Newest-wins: with slots 0..2 erased, any valid record in slot 3 and
any valid record in slot 5 (same or different versions), Locate-newest
returns the record at slot 3 and sets the cursor to 3. -/
theorem claim_C8_newest_wins (r3 r5 : List Nat) (rest : Sector) (prev : Settings)
    (h3 : slotValid r3 = true) (h5 : slotValid r5 = true) :
    locateNewest (erasedSlot :: erasedSlot :: erasedSlot :: r3 ::
      erasedSlot :: r5 :: rest) = (some 3, 3) ∧
    settings_load (erasedSlot :: erasedSlot :: erasedSlot :: r3 ::
      erasedSlot :: r5 :: rest) prev = (applyRecord r3 prev, 3) := by
  have hloc : locateNewest (erasedSlot :: erasedSlot :: erasedSlot :: r3 ::
      erasedSlot :: r5 :: rest) = (some 3, 3) := by
    have e1 : scanFrom (erasedSlot :: erasedSlot :: erasedSlot :: r3 ::
        erasedSlot :: r5 :: rest) 0 256
      = scanFrom (erasedSlot :: erasedSlot :: erasedSlot :: r3 ::
        erasedSlot :: r5 :: rest) 1 255 :=
      scan_skip slotValid_erasedSlot slotEmpty_erasedSlot
    have e2 : scanFrom (erasedSlot :: erasedSlot :: erasedSlot :: r3 ::
        erasedSlot :: r5 :: rest) 1 255
      = scanFrom (erasedSlot :: erasedSlot :: erasedSlot :: r3 ::
        erasedSlot :: r5 :: rest) 2 254 :=
      scan_skip slotValid_erasedSlot slotEmpty_erasedSlot
    have e3 : scanFrom (erasedSlot :: erasedSlot :: erasedSlot :: r3 ::
        erasedSlot :: r5 :: rest) 2 254
      = scanFrom (erasedSlot :: erasedSlot :: erasedSlot :: r3 ::
        erasedSlot :: r5 :: rest) 3 253 :=
      scan_skip slotValid_erasedSlot slotEmpty_erasedSlot
    have e4 : scanFrom (erasedSlot :: erasedSlot :: erasedSlot :: r3 ::
        erasedSlot :: r5 :: rest) 3 253 = (some 3, 3) :=
      scan_stop_valid h3
    exact ((e1.trans e2).trans e3).trans e4
  exact ⟨hloc, settings_load_of_some hloc⟩

/-- Witness for C8 with a V5 record in slot 3 and a V4 record in slot 5. -/
theorem claim_C8_witness :
    locateNewest (erasedSlot :: erasedSlot :: erasedSlot :: encodeV5 sample1 ::
      erasedSlot :: encodeV4 sample1 :: []) = (some 3, 3) ∧
    settings_load (erasedSlot :: erasedSlot :: erasedSlot :: encodeV5 sample1 ::
      erasedSlot :: encodeV4 sample1 :: []) samplePrev
      = (applyRecord (encodeV5 sample1) samplePrev, 3) :=
  claim_C8_newest_wins (encodeV5 sample1) (encodeV4 sample1) [] samplePrev
    (by decide) (by decide)

/-- C6: Exhaustion triggers erase: a `settings_save` issued with the cursor
at 0 erases the whole sector, resets the cursor to the sentinel 256, then
decrements it and programs the new record into slot 255 of the freshly
erased sector. -/
theorem claim_C6_exhaustion_erase (s : Settings) (st : Store)
    (h : st.cursor = 0) :
    settings_save s st =
      ⟨erasedSector.set 255 (encodeV5 s), 255, st.erases + 1⟩ := by
  simp [settings_save, h]

/-- Witness for C6 at a concrete exhausted store. -/
theorem claim_C6_witness :
    settings_save sample1 ⟨erasedSector, 0, 0⟩ =
      ⟨erasedSector.set 255 (encodeV5 sample1), 255, 0 + 1⟩ :=
  claim_C6_exhaustion_erase sample1 ⟨erasedSector, 0, 0⟩ rfl

/-- Invariant behind the wear-amortization claim: starting from cursor 256
with no erase performed, the first `k ≤ 256` saves keep the erase count at
zero and leave the cursor at `256 - k`. -/
lemma applySaves_invariant (seq : Nat → Settings) (sec : Sector) (e : Nat)
    (k : Nat) (hk : k ≤ 256) :
    (applySaves seq k ⟨sec, 256, e⟩).cursor = 256 - k ∧
    (applySaves seq k ⟨sec, 256, e⟩).erases = e := by
  induction k with
  | zero => exact ⟨rfl, rfl⟩
  | succ k ih =>
    obtain ⟨ih1, ih2⟩ := ih (by omega)
    have hne : (applySaves seq k ⟨sec, 256, e⟩).cursor ≠ 0 := by omega
    constructor
    · show (settings_save (seq k) (applySaves seq k ⟨sec, 256, e⟩)).cursor = 256 - (k + 1)
      simp only [settings_save, if_neg hne]
      omega
    · show (settings_save (seq k) (applySaves seq k ⟨sec, 256, e⟩)).erases = e
      simp only [settings_save, if_neg hne]
      exact ih2

/-- C7: Wear amortization: after a boot scan of a freshly erased sector
(which finds no record and leaves the cursor at the sentinel 256), none of
the first 256 consecutive `settings_save` calls erases the sector, and the
257th performs exactly one erase. -/
theorem claim_C7_wear_amortization (seq : Nat → Settings) (prev : Settings)
    (k : Nat) (hk : k ≤ 256) :
    settings_load erasedSector prev = (prev, 256) ∧
    (applySaves seq k ⟨erasedSector, (settings_load erasedSector prev).2, 0⟩).erases = 0 ∧
    (applySaves seq 257 ⟨erasedSector, (settings_load erasedSector prev).2, 0⟩).erases = 1 := by
  have hload : settings_load erasedSector prev = (prev, 256) :=
    settings_load_of_none locateNewest_erasedSector
  refine ⟨hload, ?_, ?_⟩
  · rw [hload]
    exact (applySaves_invariant seq erasedSector 0 k hk).2
  · rw [hload]
    show (settings_save (seq 256) (applySaves seq 256 ⟨erasedSector, 256, 0⟩)).erases = 1
    obtain ⟨h1, h2⟩ := applySaves_invariant seq erasedSector 0 256 (by omega)
    have hz : (applySaves seq 256 ⟨erasedSector, 256, 0⟩).cursor = 0 := by omega
    simp only [settings_save, if_pos hz, h2]

/-- Witness for C7 at k = 256 with a constant save sequence. -/
theorem claim_C7_witness :
    settings_load erasedSector samplePrev = (samplePrev, 256) ∧
    (applySaves (fun _ => sample1) 256
      ⟨erasedSector, (settings_load erasedSector samplePrev).2, 0⟩).erases = 0 ∧
    (applySaves (fun _ => sample1) 257
      ⟨erasedSector, (settings_load erasedSector samplePrev).2, 0⟩).erases = 1 :=
  claim_C7_wear_amortization (fun _ => sample1) samplePrev 256 (by omega)

/-- C10: Corruption at slot 0 forces a full erase on the next save: if the
boot scan stops at slot 0 because slot 0 is written but invalid, the cursor
is set to 0, and the very next `settings_save` erases the entire sector and
programs the new record into slot 255. -/
theorem claim_C10_corrupt_slot0 (sec : Sector) (prev s : Settings) (e : Nat)
    (h1 : slotValid (slotOf sec 0) = false)
    (h2 : slotEmpty (slotOf sec 0) = false) :
    (settings_load sec prev).2 = 0 ∧
    settings_save s ⟨sec, (settings_load sec prev).2, e⟩ =
      ⟨erasedSector.set 255 (encodeV5 s), 255, e + 1⟩ := by
  have hloc : locateNewest sec = (none, 0) := scan_stop_corrupt h1 h2
  have hload : settings_load sec prev = (prev, 0) := settings_load_of_none hloc
  rw [hload]
  exact ⟨rfl, by simp [settings_save]⟩

/-- Witness for C10 at a concrete corrupted sector. -/
theorem claim_C10_witness :
    (settings_load (corruptZeroSlot :: []) samplePrev).2 = 0 ∧
    settings_save sample1 ⟨corruptZeroSlot :: [],
        (settings_load (corruptZeroSlot :: []) samplePrev).2, 0⟩ =
      ⟨erasedSector.set 255 (encodeV5 sample1), 255, 0 + 1⟩ :=
  claim_C10_corrupt_slot0 (corruptZeroSlot :: []) samplePrev sample1 0
    (by decide) (by decide)

/-- C4 (counterexample to the claim as stated): `sample4` is a valid
settings state whose encoded V5 record stays valid after flipping bit 0 of
its version byte (a position covered by the declared size): the flip turns
version 5 into version 4, and because the three picture-control bytes sum
to 255 mod 256 the V4 checksum also matches, so the corrupted record still
decodes as a (different) valid record. -/
theorem claim_C4_counterexample :
    ValidSettings sample4 ∧
    slotValid (encodeV5 sample4) = true ∧
    slotValid (flipBit (encodeV5 sample4) 1 0) = true ∧
    byteAt (flipBit (encodeV5 sample4) 1 0) 1 = 4 := by
  decide

/-- C4 (amended): for every validly encoded record, flipping any single bit
at a byte position covered by the record's declared size makes decoding
report Invalid, with one exception: bit 0 of the version byte of a V5
record (which can turn it into a valid V4 record, as the counterexample
shows).  A V4 record is sensitive to every covered single-bit flip,
including the version-byte ones. -/
theorem claim_C4_amended (s : Settings) (h : ValidSettings s) (j k : Nat)
    (hk : k < 8) :
    (j < 63 → ¬(j = 1 ∧ k = 0) → slotValid (flipBit (encodeV5 s) j k) = false) ∧
    (j < 60 → slotValid (flipBit (encodeV4 s) j k) = false) := by
  have hlen5 : (encodeV5 s).length = 64 := encodeV5_length s h
  have hlen4 : (encodeV4 s).length = 64 := encodeV4_length s h
  have hchk5 : chkSum (encodeV5 s) 63 = byteAt (encodeV5 s) 0 := chkSum_encodeV5 s h
  have hchk4 : chkSum (encodeV4 s) 60 = byteAt (encodeV4 s) 0 := chkSum_encodeV4 s h
  have hsz5 : recordSize (byteAt (encodeV5 s) 1) = 63 := rfl
  have hsz4 : recordSize (byteAt (encodeV4 s) 1) = 60 := rfl
  constructor
  · intro hj hex
    rcases Nat.lt_or_ge j 2 with hj2 | hj2
    · interval_cases j
      · exact slotValid_flip_zero _ 63 k hchk5 hsz5 (by omega)
      · have hk1 : 1 ≤ k := by
          rcases Nat.eq_zero_or_pos k with h0 | h0
          · exact absurd ⟨rfl, h0⟩ hex
          · exact h0
        have hf1 : byteAt (flipBit (encodeV5 s) 1 k) 1 = 5 ^^^ 2^k := by
          rw [byteAt_flipBit_self _ 1 k (by omega)]
          rw [show byteAt (encodeV5 s) 1 = 5 from rfl]
        apply slotValid_eq_false_of_bad_version
        · rw [hf1]; interval_cases k <;> decide
        · rw [hf1]; interval_cases k <;> decide
    · exact slotValid_flip_mid _ 63 j k hchk5 hsz5 hj2 hj hk (by omega)
        (encodeV5_byte_lt s j)
  · intro hj
    rcases Nat.lt_or_ge j 2 with hj2 | hj2
    · interval_cases j
      · exact slotValid_flip_zero _ 60 k hchk4 hsz4 (by omega)
      · rcases Nat.eq_zero_or_pos k with hk0 | hk1
        · subst hk0
          exact slotValid_flip_version_V4 s h
        · have hf1 : byteAt (flipBit (encodeV4 s) 1 k) 1 = 4 ^^^ 2^k := by
            rw [byteAt_flipBit_self _ 1 k (by omega)]
            rw [show byteAt (encodeV4 s) 1 = 4 from rfl]
          apply slotValid_eq_false_of_bad_version
          · rw [hf1]; interval_cases k <;> decide
          · rw [hf1]; interval_cases k <;> decide
    · exact slotValid_flip_mid _ 60 j k hchk4 hsz4 hj2 hj hk (by omega)
        (encodeV4_byte_lt s j)

/-- Witness for the amended C4: a concrete flip (byte 10, bit 3) of both
record versions of a concrete state is rejected. -/
theorem claim_C4_witness :
    slotValid (flipBit (encodeV5 sample1) 10 3) = false ∧
    slotValid (flipBit (encodeV4 sample1) 10 3) = false :=
  ⟨(claim_C4_amended sample1 (by decide) 10 3 (by decide)).1 (by decide) (by decide),
   (claim_C4_amended sample1 (by decide) 10 3 (by decide)).2 (by decide)⟩

end GCVideo
